import Mathlib

/-!
# Verification of the SmolPot backend round orchestrator and EOS beacon client

Shallow embedding of `src/services/gameManager.js` (round lifecycle
orchestrator) and `src/services/eosService.js` (EOS randomness beacon
client), together with the persistence operations of the Supabase service
they call.  External collaborators (the ledger contract, the EOS RPC
endpoints, the database) are modelled as oracles: each awaited call is an
input of type `Except`-of-its-result, so a theorem quantifying over the
oracle covers every behaviour of the collaborator, including throwing.

Every embedded orchestrator function additionally produces a trace of
`Event`s, one event per externally visible call the JavaScript code issues,
in program order.  Guard manipulation (`isProcessing`) is traced as well, so
ordering claims ("the guard is set before any awaited call") are statable.
-/

namespace SmolPot

/-- A failure raised by an awaited call.  `status` is `error.response.status`
when the underlying axios error carries an HTTP response; a plain
`new Error(...)` (such as the aggregate error thrown by `makeRpcCall` after
exhausting all endpoints) has no `response`, hence `status = none`. -/
structure HttpFailure where
  message : String
  status : Option Nat
deriving DecidableEq, Repr

/-- The pot state returned by `contractService.getPotState()`, as consumed by
`GameManager.checkAndProcessGameState` (fields `potId`, `phase`, `startTime`,
`totalAmount`, `tickets`, `playerCount`).  `phase` is the raw integer the
ledger reports (the code applies `parseInt`); it is *not* restricted to the
four known phases, mirroring the `default:` branch of the dispatch. -/
structure PotState where
  potId : Nat
  phase : Nat
  startTime : Nat
  totalAmount : Nat
  tickets : Nat
  playerCount : Nat
deriving DecidableEq, Repr

/-- `GamePhase` enum from `gameManager.js` (values match SmolPotCore.sol). -/
def GamePhase.IDLE : Nat := 0
def GamePhase.BETTING : Nat := 1
def GamePhase.LOCKED : Nat := 2
def GamePhase.COMPLETE : Nat := 3

/-- Result of `contractService.lockGame()`. -/
structure TxResult where
  txHash : String
  blockNumber : Nat
deriving DecidableEq, Repr

/-- Result of `contractService.finishGame(hash)`: receipt plus the winner
extracted from the `GameFinished` event (possibly absent). -/
structure FinishResult where
  txHash : String
  blockNumber : Nat
  winner : Option String
deriving DecidableEq, Repr

/-- The record returned by `eosService.getFutureBlockHash()`:
`{ blockNum, blockHash, timestamp, producer }`. -/
structure EosBlock where
  blockNum : Nat
  blockHash : String
  timestamp : String
  producer : String
deriving DecidableEq, Repr

/-- The `updates` object passed to `updateGameRound` — we keep the two fields
the claims are about: the phase string and the recorded winner
(`winner_address`, present only in the COMPLETE update issued by
`finishGame`). -/
structure RoundUpdate where
  phase : String
  winner : Option String
deriving DecidableEq, Repr

/-- One externally visible call issued by the orchestrator, in program
order.  `setGuard`/`clearGuard` trace the writes to `this.isProcessing`;
`readState` is `contractService.getPotState()`; `beaconRequest` is the call
into `eosService.getFutureBlockHash()`; the `db*` events are the *attempts*
to write to Supabase (issued whether or not the write succeeds). -/
inductive Event where
  | setGuard : Event
  | clearGuard : Event
  | readState : Event
  | startGameCall : Event
  | emergencyCancelCall : Event
  | beaconRequest : Event
  | lockCall : Event
  | finishCall (seed : String) : Event
  | dbCreateRound (potId : Nat) : Event
  | dbUpdateRound (potId : Nat) (u : RoundUpdate) : Event
  | dbCreateProof (potId : Nat) : Event
  | logInfo : Event
  | logError (msg : String) : Event
deriving DecidableEq, Repr

/-- Events that submit a state-changing transaction to the ledger. -/
def Event.isLedgerMutating : Event → Bool
  | .startGameCall => true
  | .emergencyCancelCall => true
  | .lockCall => true
  | .finishCall _ => true
  | _ => false

/-- Events that attempt a persistence (database) write. -/
def Event.isDbWrite : Event → Bool
  | .dbCreateRound _ => true
  | .dbUpdateRound _ _ => true
  | .dbCreateProof _ => true
  | _ => false

/-- `GameManager.createGameRound(potId)`: attempts the Supabase insert once;
its own `try/catch` swallows any failure (logging it), so it never throws
and never retries. -/
def createGameRound (db : Except HttpFailure Unit) (potId : Nat) : List Event :=
  match db with
  | .ok _ => [.dbCreateRound potId, .logInfo]
  | .error e => [.dbCreateRound potId, .logError e.message]

/-- `GameManager.updateGameRound(potId, updates)`: attempts the Supabase
update (`updateGameRoundByPotId`) once; swallows any failure. -/
def updateGameRound (db : Except HttpFailure Unit) (potId : Nat) (u : RoundUpdate) :
    List Event :=
  match db with
  | .ok _ => [.dbUpdateRound potId u]
  | .error e => [.dbUpdateRound potId u, .logError e.message]

/-- `GameManager.storeEosProof(potId, eosBlock)`: attempts the Supabase
insert once; swallows any failure. -/
def storeEosProof (db : Except HttpFailure Unit) (potId : Nat) : List Event :=
  match db with
  | .ok _ => [.dbCreateProof potId, .logInfo]
  | .error e => [.dbCreateProof potId, .logError e.message]

/-- `GameManager.lockGame(state)`: submits the lock transaction; on success
updates the round record (phase `LOCKED`, no winner field); on failure logs
and *rethrows* (the `Except` in the result is the rethrow). -/
def lockGame (lockTx : Except HttpFailure TxResult) (dbU : Except HttpFailure Unit)
    (s : PotState) : List Event × Except HttpFailure Unit :=
  match lockTx with
  | .error e => ([.lockCall, .logError e.message], .error e)
  | .ok _ =>
      ([.lockCall, .logInfo] ++ updateGameRound dbU s.potId ⟨"LOCKED", none⟩, .ok ())

/-- `GameManager.finishGame(state, eosBlock)`: submits the finish transaction
with the seed; on success records the final totals/winner via a single
`updateGameRound` (phase `COMPLETE`, winner from the receipt) and stores the
EOS proof; on failure logs and rethrows. -/
def finishGame (finTx : Except HttpFailure FinishResult)
    (dbU dbP : Except HttpFailure Unit) (s : PotState) (eos : EosBlock) :
    List Event × Except HttpFailure Unit :=
  match finTx with
  | .error e => ([.finishCall eos.blockHash, .logError e.message], .error e)
  | .ok r =>
      ([.finishCall eos.blockHash, .logInfo]
        ++ updateGameRound dbU s.potId ⟨"COMPLETE", r.winner⟩
        ++ storeEosProof dbP s.potId,
       .ok ())

/-- `GameManager.handleIdlePhase(state)`: submits `startGame()`; on success
creates the round record in the database.  Its `try/catch` swallows every
failure, so the handler never throws. -/
def handleIdlePhase (startTx : Except HttpFailure Unit)
    (dbC : Except HttpFailure Unit) (s : PotState) : List Event :=
  .logInfo :: (match startTx with
  | .error e => [.startGameCall, .logError e.message]
  | .ok _ => [.startGameCall, .logInfo] ++ createGameRound dbC s.potId)

/-- `GameManager.handleBettingPhase(state)`: computes
`timeRemaining = startTime + timerDuration − now`; logs at the 30/10/5/0
second thresholds; when `now ≥ startTime + timerDuration` calls `lockGame`.
Any throw from `lockGame` is swallowed by the handler's `catch`. -/
def handleBettingPhase (now timerDuration : Nat)
    (lockTx : Except HttpFailure TxResult) (dbU : Except HttpFailure Unit)
    (s : PotState) : List Event :=
  let timeRemaining : Int := (s.startTime : Int) + timerDuration - now
  let thresholdLog : List Event :=
    if timeRemaining = 30 ∨ timeRemaining = 10 ∨ timeRemaining = 5 ∨ timeRemaining = 0
    then [.logInfo] else []
  if s.startTime + timerDuration ≤ now then
    thresholdLog ++ [.logInfo] ++
      (match lockGame lockTx dbU s with
       | (tr, .ok _) => tr
       | (tr, .error e) => tr ++ [.logError e.message])
  else
    thresholdLog

/-- `GameManager.handleLockedPhase(state)`: if the ticket count is zero, the
only action is the `emergencyCancel()` transaction and the handler returns
(no beacon request at all); otherwise it fetches a future EOS block hash and
calls `finishGame` with it.  Its `try/catch` swallows every failure. -/
def handleLockedPhase (cancelTx : Except HttpFailure Unit)
    (futureBlock : Except HttpFailure EosBlock)
    (finTx : Except HttpFailure FinishResult)
    (dbU dbP : Except HttpFailure Unit) (s : PotState) : List Event :=
  .logInfo :: (if s.tickets = 0 then
    .logInfo :: (match cancelTx with
    | .ok _ => [.emergencyCancelCall, .logInfo]
    | .error e => [.emergencyCancelCall, .logError e.message])
  else
    .logInfo :: (match futureBlock with
    | .error e => [.beaconRequest, .logError e.message]
    | .ok eos =>
        .beaconRequest :: .logInfo ::
          (match finishGame finTx dbU dbP s eos with
           | (tr, .ok _) => tr
           | (tr, .error e) => tr ++ [.logError e.message])))

/-- `GameManager.handleCompletePhase(state)`: logs and waits — the contract
transitions back to IDLE by itself.  No ledger call, no persistence call. -/
def handleCompletePhase (_s : PotState) : List Event :=
  [.logInfo]

/-- The oracle: one entry per awaited external call a single tick can make.
An `Except.error` value means that call throws. -/
structure Oracle where
  getPotState : Except HttpFailure PotState
  startGameTx : Except HttpFailure Unit
  cancelTx : Except HttpFailure Unit
  lockResult : Except HttpFailure TxResult
  finishResult : Except HttpFailure FinishResult
  futureBlock : Except HttpFailure EosBlock
  dbCreate : Except HttpFailure Unit
  dbUpdate : Except HttpFailure Unit
  dbProof : Except HttpFailure Unit
deriving Repr

/-- The `switch (currentPhase)` dispatch of `checkAndProcessGameState`,
including the `default:` branch that only logs an error. -/
def dispatchPhase (now timerDuration : Nat) (o : Oracle) (s : PotState) :
    List Event :=
  if s.phase = GamePhase.IDLE then handleIdlePhase o.startGameTx o.dbCreate s
  else if s.phase = GamePhase.BETTING then
    handleBettingPhase now timerDuration o.lockResult o.dbUpdate s
  else if s.phase = GamePhase.LOCKED then
    handleLockedPhase o.cancelTx o.futureBlock o.finishResult o.dbUpdate o.dbProof s
  else if s.phase = GamePhase.COMPLETE then handleCompletePhase s
  else [.logError "Unknown game phase"]

/-- The body of the `try` block of `checkAndProcessGameState`: reads the pot
state and dispatches.  The `Option String` is the exception that reaches the
surrounding `catch` (`some msg`), if any: the phase handlers all swallow
their own failures, so the only throwing operation in the body is the
`getPotState` read itself. -/
def tickBody (now timerDuration : Nat) (o : Oracle) : List Event × Option String :=
  match o.getPotState with
  | .error e => ([.readState], some e.message)
  | .ok s => (.readState :: dispatchPhase now timerDuration o s, none)

/-- The result of one tick as seen from the scheduler: the trace of calls it
issued and the value of the `isProcessing` guard after it returned. -/
structure TickResult where
  events : List Event
  guard : Bool
deriving DecidableEq, Repr

/-- `GameManager.checkAndProcessGameState()` — one tick.  The outer `Except`
layer is what would propagate to the cron scheduler: an `Except.error` here
would be an exception escaping the tick.  If the guard is already set the
tick returns at once (trace empty, guard left to the in-flight tick);
otherwise it sets the guard, runs the body, routes any body exception to the
`catch` (which only logs), and clears the guard in the `finally` block on
every path. -/
def checkAndProcessGameState (now timerDuration : Nat) (o : Oracle)
    (isProcessing : Bool) : Except String TickResult :=
  if isProcessing then
    .ok ⟨[], true⟩
  else
    match tickBody now timerDuration o with
    | (evts, none) => .ok ⟨.setGuard :: evts ++ [.clearGuard], false⟩
    | (evts, some msg) =>
        .ok ⟨.setGuard :: evts ++ [.logError msg, .clearGuard], false⟩

/-- Trace of a tick (empty if the tick threw, which never happens). -/
def tickEvents (r : Except String TickResult) : List Event :=
  match r with
  | .ok t => t.events
  | .error _ => []

/-- Guard value after a tick returned (true if the tick threw, which never
happens). -/
def tickGuard (r : Except String TickResult) : Bool :=
  match r with
  | .ok t => t.guard
  | .error _ => true

/-- Whether an exception escaped the tick to the scheduler. -/
def tickEscapes (r : Except String TickResult) : Bool :=
  match r with
  | .ok _ => false
  | .error _ => true

/-- Model of the `game_rounds` table restricted to the claim-relevant
columns: rows are `(pot_id, recorded update)` pairs.
`updateGameRoundByPotId` in the Supabase service issues
`update(updates).eq('pot_id', potId)` — an UPDATE of the existing rows keyed
by `pot_id`, which this function applies. -/
def applyRoundUpdate (potId : Nat) (u : RoundUpdate)
    (rows : List (Nat × RoundUpdate)) : List (Nat × RoundUpdate) :=
  rows.map (fun r => if r.1 = potId then (r.1, u) else r)

/-! ## EOS beacon client (`eosService.js`) -/

/-- A block record as parsed by `EosService.getBlock` from the endpoint's
response: `{ block_num, id, timestamp, producer }` renamed to
`{ blockNum, blockId, timestamp, producer }`. -/
structure EosBlockRec where
  blockNum : Nat
  blockId : String
  timestamp : String
  producer : String
deriving DecidableEq, Repr

/-- Chain info parsed by `EosService.getChainInfo`. -/
structure ChainInfo where
  headBlockNum : Nat
  lastIrreversibleBlockNum : Nat
  chainId : String
deriving DecidableEq, Repr

/-- The message of the error thrown by `makeRpcCall` after exhausting all
endpoints. -/
def aggregateMessage (n : Nat) (lastMsg : String) : String :=
  "Failed to connect to any EOS RPC endpoint after " ++ toString n ++
    " attempts. Last error: " ++ lastMsg

/-- The aggregate error `makeRpcCall` throws after exhausting all endpoints.
It is built with `new Error(message)` — a plain error with no HTTP
`response`, hence `status = none`. -/
def aggregateError (n : Nat) (lastMsg : String) : HttpFailure :=
  ⟨aggregateMessage n lastMsg, none⟩

/-- The retry loop of `EosService.makeRpcCall`.  Arguments: the per-endpoint
response oracle (`respond j` is what endpoint `j` answers), the endpoint
count `n` (`maxRetries = this.rpcEndpoints.length`), the current endpoint
index, the remaining attempts, and the message of the last failure so far.
On a failure at any attempt but the last, `switchToNextEndpoint` advances
the index by one modulo `n`; on the last attempt's failure the index is left
pointing at the last endpoint tried, and the aggregate error is thrown.
Returns (result, final endpoint index, list of endpoint indices tried in
order). -/
def makeRpcCallAux {α : Type} (respond : Nat → Except HttpFailure α) (n : Nat) :
    Nat → Nat → String → Except HttpFailure α × Nat × List Nat
  | idx, 0, lastMsg => (.error (aggregateError n lastMsg), idx, [])
  | idx, remaining + 1, _ =>
    match respond idx with
    | .ok d => (.ok d, idx, [idx])
    | .error e =>
        if remaining = 0 then
          (.error (aggregateError n e.message), idx, [idx])
        else
          let res := makeRpcCallAux respond n ((idx + 1) % n) remaining e.message
          (res.1, res.2.1, idx :: res.2.2)

/-- `EosService.makeRpcCall(path, data)`: tries the current endpoint, failing
over round-robin, with `maxRetries` equal to the number of configured
endpoints.  `idx` is `this.currentEndpointIndex` on entry; the returned
index is its value after the call (the instance field persists across
calls). -/
def makeRpcCall {α : Type} (respond : Nat → Except HttpFailure α) (n idx : Nat) :
    Except HttpFailure α × Nat × List Nat :=
  makeRpcCallAux respond n idx n ""

/-- `EosService.getBlock(blockNum)`: calls `makeRpcCall` and, in its `catch`,
returns `null` when `error.response && error.response.status === 400`
(the "block might not exist yet" case), rethrowing anything else.
Result: `Except.ok (some b)` = block record, `Except.ok none` = `null`,
`Except.error` = throw.  Also returns the endpoint index after the call. -/
def getBlock (respond : Nat → Except HttpFailure EosBlockRec) (n idx : Nat) :
    Except HttpFailure (Option EosBlockRec) × Nat :=
  match makeRpcCall respond n idx with
  | (.ok b, idx2, _) => (.ok (some b), idx2)
  | (.error e, idx2, _) =>
      if e.status = some 400 then (.ok none, idx2) else (.error e, idx2)

/-- The message of the timeout error `waitForBlock` throws. -/
def waitTimeoutMessage (targetBlockNum : Nat) : String :=
  "Timeout waiting for EOS block " ++ toString targetBlockNum

/-- The polling loop of `EosService.waitForBlock(targetBlockNum, maxWaitMs)`.
`respondAt k j` is endpoint `j`'s answer to `get_block(targetBlockNum)` at
poll number `k`; `fuel` is the number of polls remaining before `maxWaitMs`
elapses (the code polls every 500&nbsp;ms until then, so fuel ≈ maxWaitMs/500).
A `null` from `getBlock` means "not yet produced": sleep and poll again.
Any throw from `getBlock` is *rethrown* by the loop's catch, aborting the
wait. -/
def waitForBlockAux (respondAt : Nat → Nat → Except HttpFailure EosBlockRec)
    (targetBlockNum n : Nat) :
    Nat → Nat → Nat → Except HttpFailure EosBlockRec × Nat
  | idx, _, 0 => (.error ⟨waitTimeoutMessage targetBlockNum, none⟩, idx)
  | idx, k, fuel + 1 =>
    match getBlock (respondAt k) n idx with
    | (.ok (some b), idx2) => (.ok b, idx2)
    | (.ok none, idx2) => waitForBlockAux respondAt targetBlockNum n idx2 (k + 1) fuel
    | (.error e, idx2) => (.error e, idx2)

/-- `EosService.waitForBlock` entry point: polling starts at poll 0. -/
def waitForBlock (respondAt : Nat → Nat → Except HttpFailure EosBlockRec)
    (targetBlockNum n idx fuel : Nat) : Except HttpFailure EosBlockRec × Nat :=
  waitForBlockAux respondAt targetBlockNum n idx 0 fuel

/-- JavaScript truthiness choice `blocksInFuture || this.futureBlockOffset`
in `getFutureBlockHash`: `null` (here `none`) and `0` are falsy, so both
select the configured default offset. -/
def offsetOf (blocksInFuture : Option Nat) (futureBlockOffset : Nat) : Nat :=
  match blocksInFuture with
  | none => futureBlockOffset
  | some v => if v = 0 then futureBlockOffset else v

/-- The target block number computed by `getFutureBlockHash`:
`lastIrreversibleBlockNum + offset`. -/
def targetBlockOf (lastIrreversible futureBlockOffset : Nat)
    (blocksInFuture : Option Nat) : Nat :=
  lastIrreversible + offsetOf blocksInFuture futureBlockOffset

/-- Whether a character sequence begins `'0', 'x'`. -/
def startsChars0x (l : List Char) : Bool :=
  match l with
  | c1 :: c2 :: _ => c1 == '0' && c2 == 'x'
  | _ => false

/-- `blockId.startsWith('0x')` — a JS string starts with `"0x"` exactly when
its character sequence begins `'0', 'x'`. -/
def startsWith0x (s : String) : Bool :=
  startsChars0x s.data

/-- Step 3 of `getFutureBlockHash` (also used by `verifyBlockHash`):
`block.blockId.startsWith('0x') ? block.blockId : '0x' + block.blockId`. -/
def ensureHexPrefix (s : String) : String :=
  if startsWith0x s then s else "0x" ++ s

/-- A lowercase hexadecimal digit, the character class `[0-9a-f]`. -/
def isHexLowerChar (c : Char) : Bool :=
  c.isDigit || (decide ('a' ≤ c) && decide (c ≤ 'f'))

/-- The regex `^0x[0-9a-f]{64}$` on a character sequence: `'0'`, `'x'`, then
exactly 64 lowercase-hex characters. -/
def seedChars (l : List Char) : Bool :=
  match l with
  | c1 :: c2 :: rest =>
      c1 == '0' && c2 == 'x' && rest.length == 64 && rest.all isHexLowerChar
  | _ => false

/-- The spec's seed format check, the regex `^0x[0-9a-f]{64}$`. -/
def isSeedFormat (s : String) : Bool :=
  seedChars s.data

/-- A character sequence from which `0x`-prefix normalization yields a
well-formed seed: either already `'0','x'` + 64 lowercase-hex characters, or
a bare 64-character lowercase-hex sequence. -/
def validChars (l : List Char) : Bool :=
  if startsChars0x l then
    (l.drop 2).length == 64 && (l.drop 2).all isHexLowerChar
  else
    l.length == 64 && l.all isHexLowerChar

/-- A beacon-native block identifier from which prefix normalization yields a
well-formed seed. -/
def validBeaconId (s : String) : Bool :=
  validChars s.data

/-- `EosService.getFutureBlockHash(blocksInFuture)`: choose the offset by
truthiness, read chain info, compute `target = lastIrreversible + offset`,
wait for the target block, and return the block with its id normalized by
`ensureHexPrefix` — no other format validation is performed.
`info` is the result of the awaited `getChainInfo()` call. -/
def getFutureBlockHash (info : Except HttpFailure ChainInfo)
    (respondAt : Nat → Nat → Except HttpFailure EosBlockRec)
    (n idx fuel futureBlockOffset : Nat) (blocksInFuture : Option Nat) :
    Except HttpFailure EosBlock × Nat :=
  let offset := offsetOf blocksInFuture futureBlockOffset
  match info with
  | .error e => (.error e, idx)
  | .ok ci =>
      let target := ci.lastIrreversibleBlockNum + offset
      match waitForBlock respondAt target n idx fuel with
      | (.error e, idx2) => (.error e, idx2)
      | (.ok b, idx2) =>
          (.ok ⟨b.blockNum, ensureHexPrefix b.blockId, b.timestamp, b.producer⟩, idx2)

/-- An attempted round update that records the final outcome: a
`dbUpdateRound` whose update carries phase `COMPLETE` (and the winner),
exactly the update `finishGame` issues. -/
def isFinalRecordWrite : Event → Bool
  | .dbUpdateRound _ u => u.phase == "COMPLETE"
  | _ => false

/-- Whether an `Except` is a success. -/
def exceptOk {ε α : Type} : Except ε α → Bool
  | .ok _ => true
  | .error _ => false

/-- Whether a `getBlock` result is the recoverable "not yet produced" value
(`null` in the JavaScript source). -/
def isNotYetProduced (r : Except HttpFailure (Option EosBlockRec) × Nat) : Bool :=
  match r.1 with
  | .ok none => true
  | _ => false

/-- A concrete Locked-phase state with zero tickets. -/
def lockedZeroState : PotState := ⟨9, 2, 0, 0, 0, 0⟩

/-- Oracle whose ledger read reports `lockedZeroState` and in which every
external call succeeds. -/
def lockedZeroOracle : Oracle :=
  ⟨.ok lockedZeroState, .ok (), .ok (), .ok ⟨"lh", 1⟩, .ok ⟨"fh", 2, some "w"⟩,
   .ok ⟨42, "0xabc", "t", "p"⟩, .ok (), .ok (), .ok ()⟩

/-- A concrete state in which the ledger reports phase Complete. -/
def completePotState : PotState := ⟨7, 3, 0, 100, 5, 2⟩

/-- Oracle whose ledger read reports `completePotState` and in which every
external call succeeds. -/
def completeOracle : Oracle :=
  ⟨.ok completePotState, .ok (), .ok (), .ok ⟨"lh", 1⟩, .ok ⟨"fh", 2, some "w"⟩,
   .ok ⟨42, "0xabc", "t", "p"⟩, .ok (), .ok (), .ok ()⟩

/-! ## Theorems -/

/-- C1: overlapping ticks are dropped, not queued.  If the in-progress guard
is set when a tick fires, the invocation returns at once with an empty trace
(no ledger read, no ledger call).  Otherwise the guard write is the very
first traced action, preceding the ledger-state read and every awaited call,
the guard is false again when the tick returns — on every exit path, for
every oracle behaviour including a throwing state read or handler — and the
guard release is the last traced action. -/
theorem tick_single_flight (now dur : Nat) (o : Oracle) :
    checkAndProcessGameState now dur o true = .ok ⟨[], true⟩ ∧
    tickGuard (checkAndProcessGameState now dur o false) = false ∧
    (tickEvents (checkAndProcessGameState now dur o false)).take 2
      = [Event.setGuard, Event.readState] ∧
    (tickEvents (checkAndProcessGameState now dur o false)).getLast?
      = some Event.clearGuard := by
  refine ⟨rfl, ?_, ?_, ?_⟩
  · unfold checkAndProcessGameState tickBody
    cases o.getPotState <;> simp [tickGuard]
  · unfold checkAndProcessGameState tickBody
    cases o.getPotState <;> simp [tickEvents]
  · unfold checkAndProcessGameState tickBody
    cases o.getPotState with
    | error e =>
        exact List.getLast?_concat
          [Event.setGuard, Event.readState, Event.logError e.message]
    | ok s =>
        exact List.getLast?_concat
          (Event.setGuard :: Event.readState :: dispatchPhase now dur o s)

/-- C8: a tick never propagates an exception to the scheduler.  For every
oracle behaviour — failing ledger read, failing handler calls, unknown phase
value — `checkAndProcessGameState` returns normally (`tickEscapes = false`),
and the guard it returns equals the guard it was entered with only when the
tick was dropped, otherwise false; in particular no error path leaves the
guard set. -/
theorem tick_never_escapes (now dur : Nat) (o : Oracle) (g : Bool) :
    tickEscapes (checkAndProcessGameState now dur o g) = false ∧
    tickGuard (checkAndProcessGameState now dur o g) = g := by
  cases g <;>
    · unfold checkAndProcessGameState tickBody
      cases o.getPotState <;> simp [tickEscapes, tickGuard]

/-- C6: in the Betting phase the only ledger-mutating action is the lock
call, and it is issued exactly when `now ≥ startTime + timerDuration`
(the fixed timer, default 60 s): the ledger-mutating events of the betting
handler's trace are exactly `[lockCall]` when the timer has expired and `[]`
otherwise, for every lock/database outcome.  At, e.g., `now = 61` for a
round with `startTime = 0` and a 60 s timer this is exactly one lock
call. -/
theorem betting_locks_iff_expired (now dur : Nat)
    (lockTx : Except HttpFailure TxResult) (dbU : Except HttpFailure Unit)
    (s : PotState) :
    (handleBettingPhase now dur lockTx dbU s).filter Event.isLedgerMutating
      = (if s.startTime + dur ≤ now then [Event.lockCall] else []) := by
  unfold handleBettingPhase lockGame updateGameRound
  cases lockTx <;> cases dbU <;>
    · by_cases h : s.startTime + dur ≤ now <;>
        simp [h, Event.isLedgerMutating, List.filter_append,
          apply_ite (List.filter Event.isLedgerMutating)]

/-- The Idle handler never issues a cancel call. -/
lemma cancel_not_in_idle (startTx dbC : Except HttpFailure Unit) (s : PotState) :
    Event.emergencyCancelCall ∉ handleIdlePhase startTx dbC s := by
  unfold handleIdlePhase createGameRound
  cases startTx <;> cases dbC <;> simp

/-- The Betting handler never issues a cancel call. -/
lemma cancel_not_in_betting (now dur : Nat) (lockTx : Except HttpFailure TxResult)
    (dbU : Except HttpFailure Unit) (s : PotState) :
    Event.emergencyCancelCall ∉ handleBettingPhase now dur lockTx dbU s := by
  unfold handleBettingPhase lockGame updateGameRound
  cases lockTx <;> cases dbU <;>
    · intro hmem
      dsimp only at hmem
      split at hmem <;> split at hmem <;> simp at hmem

/-- A cancel call in the Locked handler's trace forces a zero ticket
count. -/
lemma cancel_in_locked_zero (cancelTx : Except HttpFailure Unit)
    (futureBlock : Except HttpFailure EosBlock)
    (finTx : Except HttpFailure FinishResult)
    (dbU dbP : Except HttpFailure Unit) (s : PotState)
    (hmem : Event.emergencyCancelCall ∈
      handleLockedPhase cancelTx futureBlock finTx dbU dbP s) :
    s.tickets = 0 := by
  by_cases ht : s.tickets = 0
  · exact ht
  · exfalso
    unfold handleLockedPhase finishGame updateGameRound storeEosProof at hmem
    simp only [ht, if_false] at hmem
    cases futureBlock <;> cases finTx <;> cases dbU <;> cases dbP <;>
      simp at hmem

/-- C5: in the Locked phase with zero tickets the orchestrator issues the
`emergencyCancel` ledger call and stops: it emits no beacon request, and the
cancel is its only ledger-mutating action.  Moreover this is the sole
cancellation path: if any tick's trace contains an `emergencyCancel` call,
the ledger read must have returned a Locked-phase state with
`tickets = 0`. -/
theorem locked_zero_tickets_cancels (now dur : Nat) (o : Oracle) (g : Bool)
    (cancelTx : Except HttpFailure Unit) (futureBlock : Except HttpFailure EosBlock)
    (finTx : Except HttpFailure FinishResult) (dbU dbP : Except HttpFailure Unit)
    (s : PotState) :
    (s.tickets = 0 →
      Event.emergencyCancelCall ∈ handleLockedPhase cancelTx futureBlock finTx dbU dbP s ∧
      Event.beaconRequest ∉ handleLockedPhase cancelTx futureBlock finTx dbU dbP s ∧
      (handleLockedPhase cancelTx futureBlock finTx dbU dbP s).filter
          Event.isLedgerMutating = [Event.emergencyCancelCall]) ∧
    (Event.emergencyCancelCall ∈ tickEvents (checkAndProcessGameState now dur o g) →
      ∃ s2, o.getPotState = .ok s2 ∧ s2.phase = GamePhase.LOCKED ∧ s2.tickets = 0) := by
  constructor
  · intro h
    unfold handleLockedPhase
    cases cancelTx <;> simp [h, Event.isLedgerMutating]
  · intro hmem
    cases g with
    | true => simp [checkAndProcessGameState, tickEvents] at hmem
    | false =>
      unfold checkAndProcessGameState tickBody at hmem
      cases hst : o.getPotState with
      | error e => simp [hst, tickEvents] at hmem
      | ok s2 =>
        refine ⟨s2, rfl, ?_⟩
        simp [hst, tickEvents] at hmem
        unfold dispatchPhase at hmem
        split at hmem
        · exact absurd hmem (cancel_not_in_idle _ _ _)
        split at hmem
        · exact absurd hmem (cancel_not_in_betting _ _ _ _ _)
        split at hmem
        · next h2 => exact ⟨h2, cancel_in_locked_zero _ _ _ _ _ _ hmem⟩
        split at hmem
        · exact absurd hmem (by simp [handleCompletePhase])
        · exact absurd hmem (by simp)

/-- Witness for C5 at a concrete Locked round with zero tickets. -/
theorem locked_zero_tickets_cancels_witness :
    Event.emergencyCancelCall ∈
      handleLockedPhase (Except.ok ()) lockedZeroOracle.futureBlock
        lockedZeroOracle.finishResult (Except.ok ()) (Except.ok ()) lockedZeroState ∧
    (∃ s2, lockedZeroOracle.getPotState = Except.ok s2 ∧
      s2.phase = GamePhase.LOCKED ∧ s2.tickets = 0) := by
  have h := locked_zero_tickets_cancels 0 60 lockedZeroOracle false (Except.ok ())
    lockedZeroOracle.futureBlock lockedZeroOracle.finishResult (Except.ok ())
    (Except.ok ()) lockedZeroState
  exact ⟨(h.1 rfl).1, h.2 (by decide)⟩

/-- C2 counterexample: on the tick at which the orchestrator observes phase
Complete it performs no persistence write at all — the tick's trace contains
no database event, and the Complete handler's whole trace is a single log
line — so no final-totals/winner record is written by the Complete-phase
observation, contrary to the claim. -/
theorem complete_phase_records_nothing :
    (tickEvents (checkAndProcessGameState 0 60 completeOracle false)).filter
        Event.isDbWrite = [] ∧
    handleCompletePhase completePotState = [Event.logInfo] :=
  ⟨rfl, rfl⟩

/-- C2 amended: the Complete-phase handler records nothing (no ledger and no
persistence action); the round's final totals/winner are instead recorded by
`finishGame` when the Locked-phase handler finishes the round — exactly one
COMPLETE-phase round update (carrying the winner) is attempted per
successful finish and none on a failed finish — and that recording goes
through `updateGameRoundByPotId`, an UPDATE keyed by `pot_id`, so
re-applying the same recording for the same round identity leaves the table
unchanged: still exactly one persisted final record, never a second one. -/
theorem complete_recording_once_via_finish
    (finTx : Except HttpFailure FinishResult) (dbU dbP : Except HttpFailure Unit)
    (s : PotState) (eos : EosBlock) (rows : List (Nat × RoundUpdate))
    (potId : Nat) (u : RoundUpdate) :
    ((handleCompletePhase s).filter
        (fun e => e.isLedgerMutating || e.isDbWrite) = []) ∧
    ((finishGame finTx dbU dbP s eos).1.countP isFinalRecordWrite
        = if exceptOk finTx then 1 else 0) ∧
    applyRoundUpdate potId u (applyRoundUpdate potId u rows)
        = applyRoundUpdate potId u rows ∧
    (applyRoundUpdate potId u rows).length = rows.length := by
  refine ⟨rfl, ?_, ?_, ?_⟩
  · unfold finishGame updateGameRound storeEosProof exceptOk
    cases finTx <;> cases dbU <;> cases dbP <;>
      simp [isFinalRecordWrite, List.countP_append, List.countP_cons]
  · induction rows with
    | nil => rfl
    | cons r t ih =>
        unfold applyRoundUpdate at ih ⊢
        by_cases hr : r.1 = potId <;> simp [hr] at ih ⊢ <;> exact ih
  · simp [applyRoundUpdate]

/-- C9: the three persistence wrappers each attempt their database write
exactly once (no retry) whether or not it succeeds, and swallow their own
exceptions; consequently the outcome of the surrounding ledger actions is
independent of the database: `lockGame` and `finishGame` return (or rethrow)
the same result for any two database behaviours, and the Idle handler issues
the same ledger-mutating calls for any two database behaviours. -/
theorem db_failures_swallowed (dbA dbB dbP dbP2 : Except HttpFailure Unit)
    (startTx : Except HttpFailure Unit) (lockTx : Except HttpFailure TxResult)
    (finTx : Except HttpFailure FinishResult)
    (s : PotState) (eos : EosBlock) (potId : Nat) (u : RoundUpdate) :
    ((createGameRound dbA potId).countP Event.isDbWrite = 1) ∧
    ((updateGameRound dbA potId u).countP Event.isDbWrite = 1) ∧
    ((storeEosProof dbA potId).countP Event.isDbWrite = 1) ∧
    (lockGame lockTx dbA s).2 = (lockGame lockTx dbB s).2 ∧
    (finishGame finTx dbA dbP s eos).2 = (finishGame finTx dbB dbP2 s eos).2 ∧
    (handleIdlePhase startTx dbA s).filter Event.isLedgerMutating
      = (handleIdlePhase startTx dbB s).filter Event.isLedgerMutating := by
  refine ⟨?_, ?_, ?_, ?_, ?_, ?_⟩
  · cases dbA <;> rfl
  · cases dbA <;> rfl
  · cases dbA <;> rfl
  · unfold lockGame; cases lockTx <;> rfl
  · unfold finishGame; cases finTx <;> rfl
  · unfold handleIdlePhase createGameRound
    cases startTx <;> cases dbA <;> cases dbB <;> rfl

/-- C10: passing an explicit future-block offset of `0` (a falsy value in
JavaScript) to `getFutureBlockHash` selects the configured default offset,
exactly as passing `null` does: the truthiness fallback makes the chosen
offset, the computed target block, and the whole call's result identical for
`some 0` and `none`; and with a positive configured default the target is
never the finality pointer itself. -/
theorem futureBlockOffset_zero_falsy (lib d : Nat) (hd : 0 < d)
    (info : Except HttpFailure ChainInfo)
    (respondAt : Nat → Nat → Except HttpFailure EosBlockRec) (n idx fuel : Nat) :
    offsetOf (some 0) d = offsetOf none d ∧
    targetBlockOf lib d (some 0) = targetBlockOf lib d none ∧
    getFutureBlockHash info respondAt n idx fuel d (some 0)
      = getFutureBlockHash info respondAt n idx fuel d none ∧
    targetBlockOf lib d (some 0) ≠ lib := by
  refine ⟨rfl, rfl, rfl, ?_⟩
  have hoff : offsetOf (some 0) d = d := rfl
  simp only [targetBlockOf, hoff]
  omega

/-- Witness for C10 at the spec's example chain state: finality pointer
1000, default offset 5. -/
theorem futureBlockOffset_zero_falsy_witness :
    targetBlockOf 1000 5 (some 0) = targetBlockOf 1000 5 none ∧
    targetBlockOf 1000 5 (some 0) ≠ 1000 := by
  have h := futureBlockOffset_zero_falsy 1000 5 (by decide)
    (Except.ok ⟨1010, 1000, "cid"⟩) (fun _ _ => Except.error ⟨"x", none⟩) 1 0 0
  exact ⟨h.2.1, h.2.2.2⟩

/-- Every error `makeRpcCall` can throw is the aggregate error, a plain
`new Error(...)` with no HTTP response attached: its `status` is `none`. -/
lemma makeRpcCallAux_error_status_none {α : Type}
    (respond : Nat → Except HttpFailure α) (n : Nat) :
    ∀ (fuel idx : Nat) (msg : String) (e : HttpFailure),
      (makeRpcCallAux respond n idx fuel msg).1 = .error e → e.status = none := by
  intro fuel
  induction fuel with
  | zero =>
      intro idx msg e h
      simp only [makeRpcCallAux] at h
      injection h with h2
      rw [← h2]
      rfl
  | succ r ih =>
      intro idx msg e h
      simp only [makeRpcCallAux] at h
      cases hr : respond idx with
      | ok d => rw [hr] at h; simp at h
      | error fe =>
          rw [hr] at h
          by_cases h0 : r = 0
          · simp only [h0, if_true, reduceIte] at h
            injection h with h2
            rw [← h2]
            rfl
          · simp only [h0, if_false, reduceIte] at h
            exact ih ((idx + 1) % n) fe.message e h

/-- C3 (code bug): `getBlock` can never report "not yet produced".  The
`status === 400` branch of its `catch` is dead code: `makeRpcCall` consumes
the endpoint's HTTP 400 during its failover loop and, after exhausting the
endpoints, throws a fresh aggregate `Error` carrying no `response`, which
`getBlock` therefore rethrows instead of converting to `null`.  Concretely,
when every endpoint answers HTTP 400 for a not-yet-produced block,
`getBlock` throws the aggregate error, and `waitForBlock` — whose `catch`
rethrows — aborts on its first poll instead of polling again. -/
theorem getBlock_never_recovers_not_produced :
    (∀ (respond : Nat → Except HttpFailure EosBlockRec) (n idx : Nat),
       isNotYetProduced (getBlock respond n idx) = false) ∧
    getBlock (fun _ => .error ⟨"Unknown Block", some 400⟩) 2 0
      = (.error (aggregateError 2 "Unknown Block"), 1) ∧
    waitForBlock (fun _ _ => .error ⟨"Unknown Block", some 400⟩) 1005 2 0 600
      = (.error (aggregateError 2 "Unknown Block"), 1) := by
  refine ⟨?_, rfl, rfl⟩
  intro respond n idx
  unfold getBlock isNotYetProduced
  cases hm : makeRpcCall respond n idx with
  | mk r rest =>
      cases r with
      | ok b => simp
      | error e =>
          have h1 : (makeRpcCall respond n idx).1 = .error e := by rw [hm]
          have hs : e.status = none :=
            makeRpcCallAux_error_status_none respond n n idx "" e h1
          simp [hs]

/-- C4 counterexample: a successful `getFutureBlockHash` call whose seed
fails the format `^0x[0-9a-f]{64}$`.  The endpoint returns the (malformed)
block identifier `"ABCD"`; the code's only normalization is prepending
`0x`, so the call succeeds returning seed `"0xABCD"`, which fails the
format check — contradicting "the seed matches the regex for any block
identifier the beacon endpoint returns". -/
theorem futureSeed_format_counterexample :
    (getFutureBlockHash (Except.ok ⟨1010, 1000, "cid"⟩)
        (fun _ _ => Except.ok ⟨1005, "ABCD", "ts", "prod"⟩) 1 0 600 5 none).1
      = Except.ok ⟨1005, "0xABCD", "ts", "prod"⟩ ∧
    isSeedFormat "0xABCD" = false := by
  constructor
  · rfl
  · rfl

/-- Appending a string to the literal `"0x"` puts `'0', 'x'` in front of its
characters. -/
lemma data_0x_append (s : String) : ("0x" ++ s).data = '0' :: 'x' :: s.data :=
  rfl

/-- Character-level statement of the amended seed-format claim: prepending
`'0', 'x'` when the sequence does not already start with them yields a
`seedChars`-valid sequence exactly for `validChars` inputs. -/
lemma seedChars_prefix (l : List Char) :
    seedChars (if startsChars0x l then l else '0' :: 'x' :: l) = validChars l := by
  match l with
  | [] => rfl
  | [c] => rfl
  | c1 :: c2 :: t =>
      have hs : startsChars0x (c1 :: c2 :: t) = (c1 == '0' && c2 == 'x') := rfl
      unfold validChars
      rw [hs]
      by_cases hb : (c1 == '0' && c2 == 'x') = true
      · rw [if_pos hb, if_pos hb]
        simp only [Bool.and_eq_true] at hb
        simp [seedChars, hb.1, hb.2]
      · rw [if_neg hb, if_neg hb]
        simp [seedChars]

/-- C4 amended: `getFutureBlockHash` normalizes the endpoint-returned block
identifier only by prepending `0x` when the prefix is missing; the resulting
seed matches `^0x[0-9a-f]{64}$` exactly when that identifier is itself 64
lowercase-hex characters, or `0x` followed by 64 lowercase-hex characters.
(No validation is performed by the client: a malformed identifier yields a
malformed seed.) -/
theorem seed_format_iff_valid_id (s : String) :
    isSeedFormat (ensureHexPrefix s) = validBeaconId s := by
  have h := seedChars_prefix s.data
  unfold isSeedFormat validBeaconId ensureHexPrefix startsWith0x
  by_cases hb : startsChars0x s.data = true
  · rw [if_pos hb] at h ⊢
    exact h
  · rw [if_neg hb] at h ⊢
    rw [data_0x_append]
    exact h

/-- Prepending the entry index to the round-robin positions that start one
step later gives the round-robin positions starting at the entry index. -/
lemma range_map_rr (n idx k : Nat) (hidx : idx < n) :
    idx :: (List.range k).map (fun j => ((idx + 1) % n + j) % n)
      = (List.range (k + 1)).map (fun j => (idx + j) % n) := by
  rw [List.range_succ_eq_map, List.map_cons, List.map_map]
  congr 1
  · exact (Nat.mod_eq_of_lt hidx).symm
  · congr 1
    funext j
    show ((idx + 1) % n + j) % n = (idx + (j + 1)) % n
    rw [Nat.mod_add_mod]
    congr 1
    omega

/-- One step of the failover loop: success at the current endpoint. -/
lemma makeRpcCallAux_step_ok {α : Type} (respond : Nat → Except HttpFailure α)
    (n idx r : Nat) (msg : String) (d : α) (h : respond idx = .ok d) :
    makeRpcCallAux respond n idx (r + 1) msg = (.ok d, idx, [idx]) := by
  simp [makeRpcCallAux, h]

/-- One step of the failover loop: failure at the last remaining attempt —
no endpoint switch, the aggregate error is thrown. -/
lemma makeRpcCallAux_step_err_last {α : Type}
    (respond : Nat → Except HttpFailure α) (n idx : Nat) (msg : String)
    (e : HttpFailure) (h : respond idx = .error e) :
    makeRpcCallAux respond n idx 1 msg
      = (.error (aggregateError n e.message), idx, [idx]) := by
  simp [makeRpcCallAux, h]

/-- One step of the failover loop: failure with attempts remaining — switch
to the next endpoint and continue. -/
lemma makeRpcCallAux_step_err {α : Type}
    (respond : Nat → Except HttpFailure α) (n idx r : Nat) (msg : String)
    (e : HttpFailure) (h : respond idx = .error e) (hr : r ≠ 0) :
    makeRpcCallAux respond n idx (r + 1) msg
      = ((makeRpcCallAux respond n ((idx + 1) % n) r e.message).1,
         (makeRpcCallAux respond n ((idx + 1) % n) r e.message).2.1,
         idx :: (makeRpcCallAux respond n ((idx + 1) % n) r e.message).2.2) := by
  simp [makeRpcCallAux, h, hr]

/-- Within one `makeRpcCall`, the endpoints tried are consecutive
round-robin positions starting at the entry index — at most one attempt per
position. -/
lemma makeRpcCallAux_tried {α : Type} (respond : Nat → Except HttpFailure α)
    (n : Nat) :
    ∀ (fuel idx : Nat) (msg : String), idx < n →
      ∃ k, k ≤ fuel ∧
        (makeRpcCallAux respond n idx fuel msg).2.2
          = (List.range k).map (fun j => (idx + j) % n) := by
  intro fuel
  induction fuel with
  | zero =>
      intro idx msg hidx
      exact ⟨0, le_refl 0, rfl⟩
  | succ r ih =>
      intro idx msg hidx
      cases hr : respond idx with
      | ok d =>
          refine ⟨1, by omega, ?_⟩
          rw [makeRpcCallAux_step_ok respond n idx r msg d hr]
          simp [List.range_succ, Nat.mod_eq_of_lt hidx]
      | error e =>
          by_cases h0 : r = 0
          · subst h0
            refine ⟨1, by omega, ?_⟩
            rw [makeRpcCallAux_step_err_last respond n idx msg e hr]
            simp [List.range_succ, Nat.mod_eq_of_lt hidx]
          · refine ?_
            obtain ⟨k, hk, htr⟩ :=
              ih ((idx + 1) % n) e.message (Nat.mod_lt _ (by omega))
            refine ⟨k + 1, by omega, ?_⟩
            rw [makeRpcCallAux_step_err respond n idx r msg e hr h0]
            dsimp only
            rw [htr]
            exact range_map_rr n idx k hidx

/-- When every endpoint fails, the failover loop visits all `n` round-robin
positions, throws the aggregate error carrying the message of the last
failure, and leaves the endpoint index at the last position tried. -/
lemma makeRpcCallAux_all_fail (α : Type) (f : Nat → HttpFailure) (n : Nat) :
    ∀ (r idx : Nat) (msg : String), idx < n →
      makeRpcCallAux (fun j => (Except.error (f j) : Except HttpFailure α))
          n idx (r + 1) msg
        = (.error (aggregateError n (f ((idx + r) % n)).message),
           (idx + r) % n,
           (List.range (r + 1)).map (fun j => (idx + j) % n)) := by
  intro r
  induction r with
  | zero =>
      intro idx msg hidx
      rw [makeRpcCallAux_step_err_last _ n idx msg (f idx) rfl]
      simp [Nat.mod_eq_of_lt hidx, List.range_succ]
  | succ r ih =>
      intro idx msg hidx
      rw [makeRpcCallAux_step_err _ n idx (r + 1) msg (f idx) rfl
        (Nat.succ_ne_zero r)]
      rw [ih ((idx + 1) % n) (f idx).message (Nat.mod_lt _ (by omega))]
      have harg : ((idx + 1) % n + r) % n = (idx + (r + 1)) % n := by
        rw [Nat.mod_add_mod]
        congr 1
        omega
      refine congrArg₂ Prod.mk ?_ (congrArg₂ Prod.mk ?_ ?_)
      · rw [harg]
      · rw [harg]
      · exact range_map_rr n idx (r + 1) hidx

/-- A call that succeeds at its first attempt returns that answer and leaves
the endpoint selection unchanged, having tried only the current endpoint. -/
lemma makeRpcCall_first_success {α : Type} (respond : Nat → Except HttpFailure α)
    (n idx : Nat) (d : α) (hn : 0 < n) (h : respond idx = .ok d) :
    makeRpcCall respond n idx = (.ok d, idx, [idx]) := by
  obtain ⟨m, rfl⟩ : ∃ m, n = m + 1 := ⟨n - 1, by omega⟩
  unfold makeRpcCall
  simp [makeRpcCallAux, h]

/-- C7: within one logical RPC call the client advances round-robin on each
failure that leaves attempts remaining, trying each of the `n` configured
endpoints at most once (the list of endpoints tried is duplicate-free and
has length ≤ `n`); when every endpoint fails, the call throws the aggregate
error carrying the detail of the last failure, having visited all `n`
positions; and the endpoint selection is sticky across calls — it is
carried in `currentEndpointIndex`, returned by the model — changing only on
failure: a call that succeeds at its first attempt returns the selection
unchanged. -/
theorem rpc_failover_round_robin {α : Type}
    (respond : Nat → Except HttpFailure α) (f : Nat → HttpFailure) (d : α)
    (n idx : Nat) (hn : 0 < n) (hidx : idx < n) :
    ((makeRpcCall respond n idx).2.2.Nodup ∧
     (makeRpcCall respond n idx).2.2.length ≤ n) ∧
    (respond idx = .ok d → makeRpcCall respond n idx = (.ok d, idx, [idx])) ∧
    makeRpcCall (fun j => (Except.error (f j) : Except HttpFailure α)) n idx
      = (.error (aggregateError n (f ((idx + (n - 1)) % n)).message),
         (idx + (n - 1)) % n,
         (List.range n).map (fun j => (idx + j) % n)) := by
  refine ⟨?_, makeRpcCall_first_success respond n idx d hn, ?_⟩
  · obtain ⟨k, hk, htr⟩ := makeRpcCallAux_tried respond n n idx "" hidx
    have hlen : (makeRpcCall respond n idx).2.2.length = k := by
      unfold makeRpcCall
      rw [htr]
      simp
    constructor
    · unfold makeRpcCall
      rw [htr]
      refine List.Nodup.map_on ?_ (List.nodup_range k)
      intro j1 hj1 j2 hj2 heq
      rw [List.mem_range] at hj1 hj2
      have hj1n : j1 < n := lt_of_lt_of_le hj1 hk
      have hj2n : j2 < n := lt_of_lt_of_le hj2 hk
      have hm : Nat.ModEq n (idx + j1) (idx + j2) := heq
      have hm2 : Nat.ModEq n j1 j2 := Nat.ModEq.add_left_cancel' idx hm
      have : j1 % n = j2 % n := hm2
      rwa [Nat.mod_eq_of_lt hj1n, Nat.mod_eq_of_lt hj2n] at this
    · rw [hlen]
      omega
  · obtain ⟨m, rfl⟩ : ∃ m, n = m + 1 := ⟨n - 1, by omega⟩
    have h := makeRpcCallAux_all_fail α f (m + 1) m idx "" hidx
    simpa [makeRpcCall] using h

/-- Witness for C7 with two endpoints: a first-attempt success leaves the
selection at endpoint 0 having tried only it; a call during a total outage
tries endpoints 0 then 1, fails with the aggregate error carrying the last
message, and leaves the selection at endpoint 1. -/
theorem rpc_failover_round_robin_witness :
    makeRpcCall (fun _ => Except.ok (7 : Nat)) 2 0 = (.ok 7, 0, [0]) ∧
    makeRpcCall
        (fun j => (Except.error ((fun _ => (⟨"boom", none⟩ : HttpFailure)) j) :
          Except HttpFailure Nat)) 2 0
      = (.error (aggregateError 2 "boom"), 1, [0, 1]) := by
  have h := rpc_failover_round_robin (fun _ => Except.ok (7 : Nat))
    (fun _ => (⟨"boom", none⟩ : HttpFailure)) 7 2 0 (by omega) (by omega)
  refine ⟨h.2.1 rfl, ?_⟩
  have h2 := h.2.2
  simpa using h2

end SmolPot
